/-
Verification of the jstat_exporter program (src/jstat_exporter.go) against its
natural-language specification.

Shallow embedding notes:
- The shared map `latestJstat` (a Go `map[string]string` guarded by a RWMutex)
  is modelled as a function `String → Option String`; `put` and `get` model the
  locked write `latestJstat[command] = line` and the locked read
  `line, ok := latestJstat[key]`.
- `strconv.ParseFloat` is an external library routine; the collectors are
  parameterised over an abstract token parser `pf : String → Option α`, so the
  theorems hold for any parsing semantics.  `parseDec` below is one concrete
  executable instance used by the witnesses.
- `log.Fatal` (process termination) is modelled by the `fatal` outcome, and a
  Go index-out-of-range panic on `parts[i]` by the `outOfRange` outcome; both
  abort the remainder of the scrape, carrying the gauges emitted before the
  abort.
-/
import Mathlib

set_option autoImplicit false

namespace JstatExporter

/-! ## Shared sample store (`latestJstat` map with its lock) -/

/-- The shared sample store: category key → latest raw sample line. -/
def SampleStore : Type := String → Option String

/-- The initial, empty store (`make(map[string]string)`). -/
def emptyStore : SampleStore := fun _ => none

/-- `mu.Lock(); latestJstat[key] = line; mu.Unlock()`. -/
def put (st : SampleStore) (key line : String) : SampleStore :=
  fun k => if k = key then some line else st k

/-- `mu.RLock(); line, ok := latestJstat[key]; mu.RUnlock()`. -/
def get (st : SampleStore) (key : String) : Option String :=
  st key

/-! ## Tokenisation -/

/-- Accumulator-based splitter behind `fields`; splits around runs of
whitespace, dropping empty fields, as Go's `strings.Fields` does. -/
def fieldsAux : List Char → List Char → List String
  | [], [] => []
  | [], acc => [String.mk acc.reverse]
  | c :: cs, acc =>
    if c.isWhitespace then
      match acc with
      | [] => fieldsAux cs []
      | _ => String.mk acc.reverse :: fieldsAux cs []
    else fieldsAux cs (c :: acc)

/-- Model of Go `strings.Fields`: split a line into its
whitespace-delimited tokens. -/
def fields (s : String) : List String := fieldsAux s.data []

/-- Accumulator-based splitter behind `splitSpace`. -/
def splitSpaceAux : List Char → List Char → List String
  | [], acc => [String.mk acc.reverse]
  | c :: cs, acc =>
    if c = ' ' then String.mk acc.reverse :: splitSpaceAux cs []
    else splitSpaceAux cs (c :: acc)

/-- Model of Go `strings.Split(s, " ")`: split at every single space,
keeping empty fields ("" splits to [""]). -/
def splitSpace (s : String) : List String := splitSpaceAux s.data []

/-! ## Collector outcomes -/

/-- Outcome of running (part of) a scrape.  `ok es` lists the gauges emitted
(name, value) in emission order; `fatal es` means `log.Fatal` was reached
after emitting `es` (the process exits non-zero); `outOfRange es` means an
out-of-range `parts[i]` access (a Go runtime panic) was reached after
emitting `es`. -/
inductive CollectOutcome (α : Type) where
  | ok (es : List (String × α))
  | fatal (es : List (String × α))
  | outOfRange (es : List (String × α))
  deriving DecidableEq, Repr

namespace CollectOutcome

variable {α : Type}

/-- Prepend one emitted gauge to an outcome. -/
def push (q : String × α) : CollectOutcome α → CollectOutcome α
  | ok es => ok (q :: es)
  | fatal es => fatal (q :: es)
  | outOfRange es => outOfRange (q :: es)

/-- The gauges emitted before the outcome (all of them when `ok`). -/
def emitted : CollectOutcome α → List (String × α)
  | ok es => es
  | fatal es => es
  | outOfRange es => es

/-- Whether the outcome is a normal completion. -/
def isOk : CollectOutcome α → Bool
  | ok _ => true
  | _ => false

/-- Whether the outcome is a `log.Fatal` termination. -/
def isFatal : CollectOutcome α → Bool
  | fatal _ => true
  | _ => false

/-- Sequencing of two scrape fragments: if the first aborts, the second never
runs (`log.Fatal` exits the process; a panic unwinds). -/
def andThen : CollectOutcome α → CollectOutcome α → CollectOutcome α
  | ok e1, ok e2 => ok (e1 ++ e2)
  | ok e1, fatal e2 => fatal (e1 ++ e2)
  | ok e1, outOfRange e2 => outOfRange (e1 ++ e2)
  | fatal e1, _ => fatal e1
  | outOfRange e1, _ => outOfRange e1

end CollectOutcome

/-! ## The collector loop common to the four `Jstat*` methods

Each Go method is the same straight-line pattern repeated per field:
`v, err := strconv.ParseFloat(parts[i], 64); if err != nil { log.Fatal(err) };
gauge.Set(v); gauge.Collect(ch)`.  `collectLoop` runs that pattern over the
method's (token position, gauge name) table, in order. -/

/-- Run the per-field pattern over a table of (token index, gauge name):
`parts[i]` out of range panics, an unparseable token is `log.Fatal`,
otherwise the gauge is emitted and the next field processed. -/
def collectLoop {α : Type} (pf : String → Option α) (parts : List String) :
    List (Nat × String) → CollectOutcome α
  | [] => .ok []
  | (i, n) :: rest =>
    match parts.get? i with
    | none => .outOfRange []
    | some tok =>
      match pf tok with
      | none => .fatal []
      | some v => (collectLoop pf parts rest).push (n, v)

/-- Token-position table of `JstatGccapacity` (parts[1],[2],[7],[8],[11],[12]). -/
def gccapacityFields : List (Nat × String) :=
  [(1, "newMax"), (2, "newCommit"), (7, "oldMax"), (8, "oldCommit"),
   (11, "metaMax"), (12, "metaCommit")]

/-- Token-position table of `JstatGcold` (parts[1],[5]). -/
def gcoldFields : List (Nat × String) :=
  [(1, "metaUsed"), (5, "oldUsed")]

/-- Token-position table of `JstatGcnew` (parts[2],[3],[8]). -/
def gcnewFields : List (Nat × String) :=
  [(2, "sv0Used"), (3, "sv1Used"), (8, "edenUsed")]

/-- Token-position table of `JstatGc` (parts[14],[15]). -/
def gcFields : List (Nat × String) :=
  [(14, "fgcTimes"), (15, "fgcSec")]

/-- Common body of the four collector methods:
`line, ok := latestJstat[key]; if ok && line != "" { parts := strings.Fields(line); ... }`. -/
def jstatCollect {α : Type} (pf : String → Option α) (st : SampleStore)
    (key : String) (fl : List (Nat × String)) : CollectOutcome α :=
  match get st key with
  | some line => if line = "" then .ok [] else collectLoop pf (fields line) fl
  | none => .ok []

/-- `func (e *Exporter) JstatGccapacity(ch chan<- prometheus.Metric)`. -/
def JstatGccapacity {α : Type} (pf : String → Option α) (st : SampleStore) :
    CollectOutcome α :=
  jstatCollect pf st "-gccapacity" gccapacityFields

/-- `func (e *Exporter) JstatGcold(ch chan<- prometheus.Metric)`. -/
def JstatGcold {α : Type} (pf : String → Option α) (st : SampleStore) :
    CollectOutcome α :=
  jstatCollect pf st "-gcold" gcoldFields

/-- `func (e *Exporter) JstatGcnew(ch chan<- prometheus.Metric)`. -/
def JstatGcnew {α : Type} (pf : String → Option α) (st : SampleStore) :
    CollectOutcome α :=
  jstatCollect pf st "-gcnew" gcnewFields

/-- `func (e *Exporter) JstatGc(ch chan<- prometheus.Metric)`. -/
def JstatGc {α : Type} (pf : String → Option α) (st : SampleStore) :
    CollectOutcome α :=
  jstatCollect pf st "-gc" gcFields

/-- The four statistic categories, in the order `Collect` visits them. -/
def categories : List String := ["-gccapacity", "-gcold", "-gcnew", "-gc"]

/-- Token-position table of a category's collector method. -/
def categoryFields (c : String) : List (Nat × String) :=
  if c = "-gccapacity" then gccapacityFields
  else if c = "-gcold" then gcoldFields
  else if c = "-gcnew" then gcnewFields
  else if c = "-gc" then gcFields
  else []

/-- The collector method of one category. -/
def categoryCollect {α : Type} (pf : String → Option α) (st : SampleStore)
    (c : String) : CollectOutcome α :=
  if c = "-gccapacity" then JstatGccapacity pf st
  else if c = "-gcold" then JstatGcold pf st
  else if c = "-gcnew" then JstatGcnew pf st
  else if c = "-gc" then JstatGc pf st
  else .ok []

/-- `func (e *Exporter) Collect(ch chan<- prometheus.Metric)`: the four
category collectors in source order; a fatal error or panic in one aborts the
rest of the scrape. -/
def Collect {α : Type} (pf : String → Option α) (st : SampleStore) :
    CollectOutcome α :=
  (JstatGccapacity pf st).andThen
    ((JstatGcold pf st).andThen ((JstatGcnew pf st).andThen (JstatGc pf st)))

/-- A scrape restricted to a sublist of the categories, used to compare a full
scrape with one that skips an absent category. -/
def CollectList {α : Type} (pf : String → Option α) (st : SampleStore)
    (l : List String) : CollectOutcome α :=
  l.foldr (fun c acc => (categoryCollect pf st c).andThen acc) (.ok [])

/-! ## The polling loop (`runCommand`), one subprocess session

The scanner loop of `runCommand` over one subprocess's stdout: the `first`
flag discards the header row, every later line is written to the store under
the poller's category.  The second component of the result records the lines
published (`latestJstat[command] = line`), in order. -/

/-- The `for scanner.Scan()` loop of `runCommand`: state is the `first` flag,
the store, and the remaining stdout lines. -/
def scanPublish (command : String) :
    Bool → SampleStore → List String → SampleStore × List String
  | _, st, [] => (st, [])
  | true, st, _ :: rest => scanPublish command false st rest
  | false, st, line :: rest =>
    let r := scanPublish command false (put st command line) rest
    (r.1, line :: r.2)

/-- One polling session of `runCommand`: the subprocess's stdout lines are
consumed with `first = true` initially. -/
def runSession (command : String) (st : SampleStore) (lines : List String) :
    SampleStore × List String :=
  scanPublish command true st lines

/-! ## The process locator (`Jps`) -/

/-- The `pid name` entries of a process listing: the lines that split on a
single space into exactly two items (the `len(items) == 2` check). -/
def entries (lines : List String) : List (String × String) :=
  lines.filterMap fun l =>
    match splitSpace l with
    | [p, n] => some (p, n)
    | _ => none

/-- The scanner loop of `func Jps(name string)`: returns the `pid` variable's
value when the loop ends ("" when nothing matched). -/
def jpsScan (name : String) : List String → String
  | [] => ""
  | line :: rest =>
    match splitSpace line with
    | [i0, i1] =>
      if i1 = "Jps" ∨ i1 = "Jstat" then jpsScan name rest
      else if name ≠ "" then
        if i1 = name then i0 else jpsScan name rest
      else i0
    | _ => jpsScan name rest

/-- `func Jps(name string) (string, error)`: scan the listing, then
`if len(pid) == 0` return the "No target process" error. -/
def Jps (name : String) (lines : List String) : Except String String :=
  let pid := jpsScan name lines
  if pid.length = 0 then .error ("No target process: " ++ name) else .ok pid

/-- The spec's locator contract (§4.1), as a second definition to compare with
`Jps`: among the listing's entries, find the first whose name is not
self-excluded and matches the target (any name when the target is empty);
return its pid, or the not-found error. -/
def jpsPred (name : String) (e : String × String) : Bool :=
  !(e.2 == "Jps" || e.2 == "Jstat") && (name == "" || e.2 == name)

/-- Spec-side locator (see `jpsPred`). -/
def locateSpec (name : String) (lines : List String) : Except String String :=
  match (entries lines).find? (jpsPred name) with
  | some e => .ok e.1
  | none => .error ("No target process: " ++ name)

/-! ## A concrete token parser for witnesses

The theorems below are parametric in the token parser; `parseDec` is one
concrete executable parser (plain decimal numerals, an optional fractional
part) used to instantiate them on concrete sample lines. -/

/-- Read a digit string as a natural number; fails on a non-digit. -/
def digitsToNat : List Char → Nat → Option Nat
  | [], acc => some acc
  | c :: cs, acc =>
    if c.isDigit then digitsToNat cs (acc * 10 + (c.toNat - 48)) else none

/-- Concrete decimal token parser used by the witnesses: "14.0" parses to the
rational 14. -/
def parseDec (s : String) : Option ℚ :=
  match s.data.span (fun c => !(c == '.')) with
  | (intPart, []) => (digitsToNat intPart 0).map (fun n => (n : ℚ))
  | (intPart, _ :: fracPart) =>
    match digitsToNat intPart 0, digitsToNat fracPart 0 with
    | some i, some f =>
      if f = 0 then some (i : ℚ)
      else some (mkRat (i * 10 ^ fracPart.length + f) (10 ^ fracPart.length))
    | _, _ => none

/-! ## Helper lemmas -/

theorem get_put_self (st : SampleStore) (key line : String) :
    get (put st key line) key = some line := by
  simp [get, put]

theorem get_put_other (st : SampleStore) (key line k : String) (h : k ≠ key) :
    get (put st key line) k = get st k := by
  simp [get, put, h]

namespace CollectOutcome

variable {α : Type}

theorem emitted_push (q : String × α) (o : CollectOutcome α) :
    (o.push q).emitted = q :: o.emitted := by
  cases o <;> rfl

theorem isOk_push (q : String × α) (o : CollectOutcome α) :
    (o.push q).isOk = o.isOk := by
  cases o <;> rfl

theorem isOk_andThen (a b : CollectOutcome α) :
    (a.andThen b).isOk = (a.isOk && b.isOk) := by
  cases a <;> cases b <;> rfl

theorem andThen_nil_left (b : CollectOutcome α) :
    (CollectOutcome.ok []).andThen b = b := by
  cases b <;> simp [andThen]

theorem andThen_nil_right (a : CollectOutcome α) :
    a.andThen (CollectOutcome.ok []) = a := by
  cases a <;> simp [andThen]

theorem isFatal_push (q : String × α) (o : CollectOutcome α) :
    (o.push q).isFatal = o.isFatal := by
  cases o <;> rfl

end CollectOutcome

theorem collectLoop_nil {α : Type} (pf : String → Option α) (parts : List String) :
    collectLoop pf parts [] = .ok [] := rfl

theorem collectLoop_cons_none {α : Type} (pf : String → Option α)
    (parts : List String) (i : Nat) (n : String) (l : List (Nat × String))
    (h : parts.get? i = none) :
    collectLoop pf parts ((i, n) :: l) = .outOfRange [] := by
  rw [List.get?_eq_getElem?] at h
  simp [collectLoop, h]

theorem collectLoop_cons_fatal {α : Type} (pf : String → Option α)
    (parts : List String) (i : Nat) (n : String) (l : List (Nat × String))
    (t : String) (h : parts.get? i = some t) (hp : pf t = none) :
    collectLoop pf parts ((i, n) :: l) = .fatal [] := by
  rw [List.get?_eq_getElem?] at h
  simp [collectLoop, h, hp]

theorem collectLoop_cons_some {α : Type} (pf : String → Option α)
    (parts : List String) (i : Nat) (n : String) (l : List (Nat × String))
    (t : String) (v : α) (h : parts.get? i = some t) (hp : pf t = some v) :
    collectLoop pf parts ((i, n) :: l) = (collectLoop pf parts l).push (n, v) := by
  rw [List.get?_eq_getElem?] at h
  simp [collectLoop, h, hp]

/-- If some table entry's token exists but does not parse, the loop ends in
`log.Fatal` — provided the table's positions are nondecreasing (as they are in
all four methods), so that an earlier entry cannot be out of range. -/
theorem collectLoop_fatal_of_bad_token {α : Type} (pf : String → Option α)
    (parts : List String) :
    ∀ (l : List (Nat × String)), l.Pairwise (fun a b => a.1 ≤ b.1) →
    ∀ p ∈ l, ∀ tok, parts.get? p.1 = some tok → pf tok = none →
    ∃ es, collectLoop pf parts l = .fatal es := by
  intro l
  induction l with
  | nil => intro _ p hp; cases hp
  | cons hd tl ih =>
    intro hsort p hp tok htok hpf
    have hplt : p.1 < parts.length := by
      rcases List.get?_eq_some.mp htok with ⟨h1, _⟩
      exact h1
    have hhdlt : hd.1 < parts.length := by
      rcases List.mem_cons.mp hp with rfl | hmem
      · exact hplt
      · have hle : hd.1 ≤ p.1 := (List.pairwise_cons.mp hsort).1 p hmem
        omega
    rcases hth : parts.get? hd.1 with _ | t
    · rw [List.get?_eq_none] at hth
      omega
    · rcases hpt : pf t with _ | v
      · exact ⟨[], collectLoop_cons_fatal pf parts hd.1 hd.2 tl t hth hpt⟩
      · have hptl : p ∈ tl := by
          rcases List.mem_cons.mp hp with rfl | hmem
          · rw [htok] at hth
            cases hth
            rw [hpf] at hpt
            cases hpt
          · exact hmem
        rcases ih (List.pairwise_cons.mp hsort).2 p hptl tok htok hpf with ⟨es, hes⟩
        refine ⟨(hd.2, v) :: es, ?_⟩
        rw [collectLoop_cons_some pf parts hd.1 hd.2 tl t v hth hpt, hes]
        rfl

/-- Every gauge the loop emits (in any outcome) is the successful parse of the
token at that gauge's table position. -/
theorem collectLoop_emitted_sound {α : Type} (pf : String → Option α)
    (parts : List String) :
    ∀ (l : List (Nat × String)) (q : String × α),
    q ∈ (collectLoop pf parts l).emitted →
    ∃ p ∈ l, ∃ t, parts.get? p.1 = some t ∧ pf t = some q.2 ∧ q.1 = p.2 := by
  intro l
  induction l with
  | nil => intro q hq; simp [collectLoop, CollectOutcome.emitted] at hq
  | cons hd tl ih =>
    intro q hq
    rcases hth : parts.get? hd.1 with _ | t
    · rw [collectLoop_cons_none pf parts hd.1 hd.2 tl hth] at hq
      simp [CollectOutcome.emitted] at hq
    · rcases hpt : pf t with _ | v
      · rw [collectLoop_cons_fatal pf parts hd.1 hd.2 tl t hth hpt] at hq
        simp [CollectOutcome.emitted] at hq
      · rw [collectLoop_cons_some pf parts hd.1 hd.2 tl t v hth hpt,
          CollectOutcome.emitted_push] at hq
        rcases List.mem_cons.mp hq with rfl | hmem
        · exact ⟨hd, List.mem_cons_self hd tl, t, hth, hpt, rfl⟩
        · rcases ih q hmem with ⟨p, hptl, t2, h1, h2, h3⟩
          exact ⟨p, List.mem_cons_of_mem hd hptl, t2, h1, h2, h3⟩

theorem categoryCollect_gccapacity {α : Type} (pf : String → Option α)
    (st : SampleStore) :
    categoryCollect pf st "-gccapacity" = JstatGccapacity pf st := by
  rw [categoryCollect, if_pos rfl]

theorem categoryCollect_gcold {α : Type} (pf : String → Option α)
    (st : SampleStore) :
    categoryCollect pf st "-gcold" = JstatGcold pf st := by
  rw [categoryCollect, if_neg (by decide), if_pos rfl]

theorem categoryCollect_gcnew {α : Type} (pf : String → Option α)
    (st : SampleStore) :
    categoryCollect pf st "-gcnew" = JstatGcnew pf st := by
  rw [categoryCollect, if_neg (by decide), if_neg (by decide), if_pos rfl]

theorem categoryCollect_gc {α : Type} (pf : String → Option α)
    (st : SampleStore) :
    categoryCollect pf st "-gc" = JstatGc pf st := by
  rw [categoryCollect, if_neg (by decide), if_neg (by decide),
    if_neg (by decide), if_pos rfl]

/-- For the four real categories, the dispatching collector is the common body
applied to that category's key and table. -/
theorem categoryCollect_eq_jstatCollect {α : Type} (pf : String → Option α)
    (st : SampleStore) (c : String) (hc : c ∈ categories) :
    categoryCollect pf st c = jstatCollect pf st c (categoryFields c) := by
  simp only [categories, List.mem_cons, List.not_mem_nil, or_false] at hc
  rcases hc with rfl | rfl | rfl | rfl
  · rw [categoryCollect_gccapacity]
    rw [show categoryFields "-gccapacity" = gccapacityFields from rfl]
    rfl
  · rw [categoryCollect_gcold]
    rw [show categoryFields "-gcold" = gcoldFields by rw [categoryFields, if_neg (by decide), if_pos rfl]]
    rfl
  · rw [categoryCollect_gcnew]
    rw [show categoryFields "-gcnew" = gcnewFields by rw [categoryFields, if_neg (by decide), if_neg (by decide), if_pos rfl]]
    rfl
  · rw [categoryCollect_gc]
    rw [show categoryFields "-gc" = gcFields by rw [categoryFields, if_neg (by decide), if_neg (by decide), if_neg (by decide), if_pos rfl]]
    rfl

/-- The literal four-call `Collect` agrees with the fold over `categories`. -/
theorem Collect_eq_CollectList {α : Type} (pf : String → Option α)
    (st : SampleStore) :
    Collect pf st = CollectList pf st categories := by
  rw [Collect, CollectList, categories]
  simp only [List.foldr]
  rw [categoryCollect_gccapacity, categoryCollect_gcold, categoryCollect_gcnew,
    categoryCollect_gc, CollectOutcome.andThen_nil_right]

/-- After the header has been discarded, the scanner loop publishes every
remaining line in order and returns the folded store together with the
published-lines trace. -/
theorem scanPublish_false (command : String) :
    ∀ (lines : List String) (st : SampleStore),
    scanPublish command false st lines
      = (lines.foldl (fun s l => put s command l) st, lines) := by
  intro lines
  induction lines with
  | nil => intro st; rfl
  | cons hd tl ih =>
    intro st
    simp only [scanPublish, List.foldl, ih (put st command hd)]

/-! ## Claim theorems -/

/-- C1: for every capacity-category sample line stored under "-gccapacity"
with at least 13 whitespace-delimited tokens whose tokens at positions 1, 2,
7, 8, 11, 12 have 64-bit floating-point values (here: parse under the
abstract token parser), a scrape's collector sets exactly the six gauges
newMax, newCommit, oldMax, oldCommit, metaMax, metaCommit to those parsed
values, in source order. -/
theorem claim1_gccapacity_gauges {α : Type} (pf : String → Option α)
    (st : SampleStore) (line : String)
    (hl : get st "-gccapacity" = some line) (hne : line ≠ "")
    (_hlen : 13 ≤ (fields line).length)
    (t1 t2 t7 t8 t11 t12 : String) (v1 v2 v7 v8 v11 v12 : α)
    (ht1 : (fields line).get? 1 = some t1) (hp1 : pf t1 = some v1)
    (ht2 : (fields line).get? 2 = some t2) (hp2 : pf t2 = some v2)
    (ht7 : (fields line).get? 7 = some t7) (hp7 : pf t7 = some v7)
    (ht8 : (fields line).get? 8 = some t8) (hp8 : pf t8 = some v8)
    (ht11 : (fields line).get? 11 = some t11) (hp11 : pf t11 = some v11)
    (ht12 : (fields line).get? 12 = some t12) (hp12 : pf t12 = some v12) :
    JstatGccapacity pf st
      = .ok [("newMax", v1), ("newCommit", v2), ("oldMax", v7),
        ("oldCommit", v8), ("metaMax", v11), ("metaCommit", v12)] := by
  rw [JstatGccapacity]
  simp only [jstatCollect, hl, if_neg hne]
  rw [show gccapacityFields = [(1, "newMax"), (2, "newCommit"), (7, "oldMax"),
    (8, "oldCommit"), (11, "metaMax"), (12, "metaCommit")] from rfl]
  rw [collectLoop_cons_some _ _ _ _ _ _ _ ht1 hp1,
    collectLoop_cons_some _ _ _ _ _ _ _ ht2 hp2,
    collectLoop_cons_some _ _ _ _ _ _ _ ht7 hp7,
    collectLoop_cons_some _ _ _ _ _ _ _ ht8 hp8,
    collectLoop_cons_some _ _ _ _ _ _ _ ht11 hp11,
    collectLoop_cons_some _ _ _ _ _ _ _ ht12 hp12]
  rfl

/-- C1 witness: a concrete 13-token capacity line under the concrete decimal
parser yields exactly the six gauges with the tokens' numeric values. -/
theorem claim1_gccapacity_gauges_witness :
    JstatGccapacity parseDec (put emptyStore "-gccapacity"
      "0.0 1.0 2.0 3.0 4.0 5.0 6.0 7.0 8.0 9.0 10.0 11.0 12.0")
      = .ok [("newMax", (1 : ℚ)), ("newCommit", (2 : ℚ)), ("oldMax", (7 : ℚ)),
        ("oldCommit", (8 : ℚ)), ("metaMax", (11 : ℚ)), ("metaCommit", (12 : ℚ))] :=
  claim1_gccapacity_gauges parseDec
    (put emptyStore "-gccapacity"
      "0.0 1.0 2.0 3.0 4.0 5.0 6.0 7.0 8.0 9.0 10.0 11.0 12.0")
    "0.0 1.0 2.0 3.0 4.0 5.0 6.0 7.0 8.0 9.0 10.0 11.0 12.0"
    (by decide) (by decide) (by decide)
    "1.0" "2.0" "7.0" "8.0" "11.0" "12.0" 1 2 7 8 11 12
    (by decide) (by decide) (by decide) (by decide) (by decide) (by decide)
    (by decide) (by decide) (by decide) (by decide) (by decide) (by decide)

/-- C8: for every "-gc" sample line whose tokens at positions 14 and 15 exist
and parse, the full-GC collector emits exactly fgcTimes with the parsed value
of token 14 and fgcSec with the parsed value of token 15. -/
theorem claim8_gc_gauges {α : Type} (pf : String → Option α)
    (st : SampleStore) (line : String)
    (hl : get st "-gc" = some line) (hne : line ≠ "")
    (_hlen : 16 ≤ (fields line).length)
    (t14 t15 : String) (v14 v15 : α)
    (ht14 : (fields line).get? 14 = some t14) (hp14 : pf t14 = some v14)
    (ht15 : (fields line).get? 15 = some t15) (hp15 : pf t15 = some v15) :
    JstatGc pf st = .ok [("fgcTimes", v14), ("fgcSec", v15)] := by
  rw [JstatGc]
  simp only [jstatCollect, hl, if_neg hne]
  rw [show gcFields = [(14, "fgcTimes"), (15, "fgcSec")] from rfl]
  rw [collectLoop_cons_some _ _ _ _ _ _ _ ht14 hp14,
    collectLoop_cons_some _ _ _ _ _ _ _ ht15 hp15]
  rfl

/-- C8 witness: the spec's concrete 16-token "-gc" line yields fgcTimes = 14
and fgcSec = 15 under the concrete decimal parser. -/
theorem claim8_gc_gauges_witness :
    JstatGc parseDec (put emptyStore "-gc"
      "0.0 1.0 2.0 3.0 4.0 5.0 6.0 7.0 8.0 9.0 10.0 11.0 12.0 13.0 14.0 15.0")
      = .ok [("fgcTimes", (14 : ℚ)), ("fgcSec", (15 : ℚ))] :=
  claim8_gc_gauges parseDec
    (put emptyStore "-gc"
      "0.0 1.0 2.0 3.0 4.0 5.0 6.0 7.0 8.0 9.0 10.0 11.0 12.0 13.0 14.0 15.0")
    "0.0 1.0 2.0 3.0 4.0 5.0 6.0 7.0 8.0 9.0 10.0 11.0 12.0 13.0 14.0 15.0"
    (by decide) (by decide) (by decide)
    "14.0" "15.0" 14 15
    (by decide) (by decide) (by decide) (by decide)

/-- C2 counterexample: with the old-gen ("-gcold") store entry "0.0 1.0 2.0"
(3 tokens, all numeric) and the concrete decimal parser, the collector's
outcome is an out-of-range access of token position 5 (a runtime index
panic reached after emitting metaUsed), not the `log.Fatal` path that the
claim's MalformedSample error denotes. -/
theorem claim2_counterexample :
    JstatGcold parseDec (put emptyStore "-gcold" "0.0 1.0 2.0")
      = .outOfRange [("metaUsed", (1 : ℚ))] ∧
    (JstatGcold parseDec (put emptyStore "-gcold" "0.0 1.0 2.0")).isFatal
      = false :=
  ⟨by decide, by decide⟩

/-- C2 amended: a stored 3-token old-gen line whose token at position 1
parses leads the collector to an out-of-range access of the required token
position 5 — a runtime index panic, not a MalformedSample parse error — after
emitting the metaUsed gauge and without emitting any oldUsed gauge. -/
theorem claim2_gcold_short_line {α : Type} (pf : String → Option α)
    (st : SampleStore) (line t0 t1 t2 : String) (v1 : α)
    (hl : get st "-gcold" = some line) (hne : line ≠ "")
    (hf : fields line = [t0, t1, t2]) (hp : pf t1 = some v1) :
    JstatGcold pf st = .outOfRange [("metaUsed", v1)] := by
  rw [JstatGcold]
  simp only [jstatCollect, hl, if_neg hne]
  rw [hf, show gcoldFields = [(1, "metaUsed"), (5, "oldUsed")] from rfl]
  rw [collectLoop_cons_some _ _ _ _ _ _ _ (show [t0, t1, t2].get? 1 = some t1 from rfl) hp]
  rw [collectLoop_cons_none _ _ _ _ _ (show [t0, t1, t2].get? 5 = none from rfl)]
  rfl

/-- C2 witness for the amended statement, at the counterexample's input. -/
theorem claim2_gcold_short_line_witness :
    JstatGcold parseDec (put emptyStore "-gcold" "0.0 1.0 2.0")
      = .outOfRange [("metaUsed", (1 : ℚ))] :=
  claim2_gcold_short_line parseDec (put emptyStore "-gcold" "0.0 1.0 2.0")
    "0.0 1.0 2.0" "0.0" "1.0" "2.0" 1
    (by decide) (by decide) (by decide) (by decide)

/-- C3: for every category, if the stored non-empty sample line has a
required token that exists but fails to parse, then that category's collector
reaches `log.Fatal` (every gauge it did emit carries the successful parse of
the token at its own table position — nothing is emitted from the failing
token), and the whole scrape (`Collect`, all four categories) does not
complete normally. -/
theorem claim3_parse_failure_fatal {α : Type} (pf : String → Option α)
    (st : SampleStore) (c line : String) (hc : c ∈ categories)
    (hl : get st c = some line) (hne : line ≠ "")
    (i : Nat) (n : String) (hi : (i, n) ∈ categoryFields c) (tok : String)
    (ht : (fields line).get? i = some tok) (hpf : pf tok = none) :
    (∃ es, categoryCollect pf st c = .fatal es ∧
      ∀ q ∈ es, ∃ p ∈ categoryFields c, ∃ t,
        (fields line).get? p.1 = some t ∧ pf t = some q.2 ∧ q.1 = p.2) ∧
    (Collect pf st).isOk = false := by
  have hcc := categoryCollect_eq_jstatCollect pf st c hc
  have hun : jstatCollect pf st c (categoryFields c)
      = collectLoop pf (fields line) (categoryFields c) := by
    simp only [jstatCollect, hl, if_neg hne]
  have hsort : (categoryFields c).Pairwise (fun a b => a.1 ≤ b.1) := by
    have hc2 := hc
    simp only [categories, List.mem_cons, List.not_mem_nil, or_false] at hc2
    rcases hc2 with rfl | rfl | rfl | rfl <;> decide
  obtain ⟨es, hes⟩ := collectLoop_fatal_of_bad_token pf (fields line)
    (categoryFields c) hsort (i, n) hi tok ht hpf
  have hfat : jstatCollect pf st c (categoryFields c) = .fatal es := by
    rw [hun, hes]
  refine ⟨⟨es, by rw [hcc, hfat], ?_⟩, ?_⟩
  · intro q hq
    have hmem : q ∈ (collectLoop pf (fields line) (categoryFields c)).emitted := by
      rw [hes]
      exact hq
    exact collectLoop_emitted_sound pf (fields line) (categoryFields c) q hmem
  · have hc2 := hc
    simp only [categories, List.mem_cons, List.not_mem_nil, or_false] at hc2
    rcases hc2 with rfl | rfl | rfl | rfl
    · have hx : (JstatGccapacity pf st).isOk = false := by
        rw [show JstatGccapacity pf st
          = jstatCollect pf st "-gccapacity" (categoryFields "-gccapacity") from rfl, hfat]
        rfl
      simp [Collect, CollectOutcome.isOk_andThen, hx]
    · have hx : (JstatGcold pf st).isOk = false := by
        rw [show JstatGcold pf st
          = jstatCollect pf st "-gcold" (categoryFields "-gcold") from rfl, hfat]
        rfl
      simp [Collect, CollectOutcome.isOk_andThen, hx]
    · have hx : (JstatGcnew pf st).isOk = false := by
        rw [show JstatGcnew pf st
          = jstatCollect pf st "-gcnew" (categoryFields "-gcnew") from rfl, hfat]
        rfl
      simp [Collect, CollectOutcome.isOk_andThen, hx]
    · have hx : (JstatGc pf st).isOk = false := by
        rw [show JstatGc pf st
          = jstatCollect pf st "-gc" (categoryFields "-gc") from rfl, hfat]
        rfl
      simp [Collect, CollectOutcome.isOk_andThen, hx]

/-- C3 witness: a capacity line whose token 1 is "x" (present but
unparseable) makes the capacity collector fatal and the whole scrape abort. -/
theorem claim3_parse_failure_fatal_witness :
    (∃ es, categoryCollect parseDec (put emptyStore "-gccapacity" "0 x 2")
        "-gccapacity" = .fatal es ∧
      ∀ q ∈ es, ∃ p ∈ categoryFields "-gccapacity", ∃ t,
        (fields "0 x 2").get? p.1 = some t ∧ parseDec t = some q.2 ∧ q.1 = p.2) ∧
    (Collect parseDec (put emptyStore "-gccapacity" "0 x 2")).isOk = false :=
  claim3_parse_failure_fatal parseDec (put emptyStore "-gccapacity" "0 x 2")
    "-gccapacity" "0 x 2" (by decide) (by decide) (by decide)
    1 "newMax" (by decide) "x" (by decide) (by decide)

/-- C4: within one polling session, the poller discards exactly the first
line of the subprocess's stdout and publishes every subsequent line verbatim,
in order, to the store under its category (each publish overwriting the
previous); hence the first published sample is the input's second line and
the header line is never published. -/
theorem claim4_header_discard (command : String) (st : SampleStore)
    (lines : List String) :
    (runSession command st lines).2 = lines.drop 1 ∧
    (runSession command st lines).1
      = (lines.drop 1).foldl (fun s l => put s command l) st ∧
    ((runSession command st lines).2).head? = lines.get? 1 := by
  cases lines with
  | nil => exact ⟨rfl, rfl, rfl⟩
  | cons hd tl =>
    have h : runSession command st (hd :: tl)
        = (tl.foldl (fun s l => put s command l) st, tl) := by
      show scanPublish command false st tl = _
      exact scanPublish_false command tl st
    rw [h]
    refine ⟨rfl, rfl, ?_⟩
    show tl.head? = (hd :: tl).get? 1
    cases tl <;> rfl

/-- C5: publishing A then B for one category leaves a get of that category
returning exactly B, and a put to one category leaves every other category's
entry unchanged. -/
theorem claim5_store_overwrite (st : SampleStore) (c A B c' : String)
    (hne : c' ≠ c) :
    get (put (put st c A) c B) c = some B ∧
    get (put st c A) c' = get st c' ∧
    get (put (put st c A) c B) c' = get st c' := by
  refine ⟨get_put_self (put st c A) c B, get_put_other st c A c' hne, ?_⟩
  rw [get_put_other (put st c A) c B c' hne, get_put_other st c A c' hne]

/-- C5 witness at concrete categories and samples. -/
theorem claim5_store_overwrite_witness :
    get (put (put emptyStore "-gc" "1 2") "-gc" "3 4") "-gc" = some "3 4" ∧
    get (put emptyStore "-gc" "1 2") "-gcold" = get emptyStore "-gcold" ∧
    get (put (put emptyStore "-gc" "1 2") "-gc" "3 4") "-gcold"
      = get emptyStore "-gcold" :=
  claim5_store_overwrite emptyStore "-gc" "1 2" "3 4" "-gcold" (by decide)

/-- Unfolding one step of `CollectList`. -/
theorem CollectList_cons {α : Type} (pf : String → Option α) (st : SampleStore)
    (c : String) (l : List String) :
    CollectList pf st (c :: l)
      = (categoryCollect pf st c).andThen (CollectList pf st l) := rfl

/-- C6: a category with no store entry contributes no gauges and no error to
a scrape — its collector emits nothing, and the full scrape equals the scrape
over the remaining categories alone. -/
theorem claim6_absent_category {α : Type} (pf : String → Option α)
    (st : SampleStore) (c : String) (hc : c ∈ categories)
    (h : get st c = none) :
    categoryCollect pf st c = .ok [] ∧
    Collect pf st = CollectList pf st (categories.erase c) := by
  have h1 : categoryCollect pf st c = .ok [] := by
    rw [categoryCollect_eq_jstatCollect pf st c hc]
    simp only [jstatCollect, h]
  refine ⟨h1, ?_⟩
  rw [Collect_eq_CollectList]
  have hc2 := hc
  simp only [categories, List.mem_cons, List.not_mem_nil, or_false] at hc2
  rcases hc2 with rfl | rfl | rfl | rfl
  · rw [show categories.erase "-gccapacity" = ["-gcold", "-gcnew", "-gc"] from by decide,
      show (categories : List String) = ["-gccapacity", "-gcold", "-gcnew", "-gc"] from rfl,
      CollectList_cons pf st "-gccapacity" ["-gcold", "-gcnew", "-gc"], h1,
      CollectOutcome.andThen_nil_left]
  · rw [show categories.erase "-gcold" = ["-gccapacity", "-gcnew", "-gc"] from by decide,
      show (categories : List String) = ["-gccapacity", "-gcold", "-gcnew", "-gc"] from rfl,
      CollectList_cons pf st "-gccapacity" ["-gcold", "-gcnew", "-gc"],
      CollectList_cons pf st "-gcold" ["-gcnew", "-gc"], h1,
      CollectOutcome.andThen_nil_left,
      CollectList_cons pf st "-gccapacity" ["-gcnew", "-gc"]]
  · rw [show categories.erase "-gcnew" = ["-gccapacity", "-gcold", "-gc"] from by decide,
      show (categories : List String) = ["-gccapacity", "-gcold", "-gcnew", "-gc"] from rfl,
      CollectList_cons pf st "-gccapacity" ["-gcold", "-gcnew", "-gc"],
      CollectList_cons pf st "-gcold" ["-gcnew", "-gc"],
      CollectList_cons pf st "-gcnew" ["-gc"], h1,
      CollectOutcome.andThen_nil_left,
      CollectList_cons pf st "-gccapacity" ["-gcold", "-gc"],
      CollectList_cons pf st "-gcold" ["-gc"]]
  · rw [show categories.erase "-gc" = ["-gccapacity", "-gcold", "-gcnew"] from by decide,
      show (categories : List String) = ["-gccapacity", "-gcold", "-gcnew", "-gc"] from rfl,
      CollectList_cons pf st "-gccapacity" ["-gcold", "-gcnew", "-gc"],
      CollectList_cons pf st "-gcold" ["-gcnew", "-gc"],
      CollectList_cons pf st "-gcnew" ["-gc"],
      CollectList_cons pf st "-gc" [], h1,
      CollectOutcome.andThen_nil_left,
      CollectList_cons pf st "-gccapacity" ["-gcold", "-gcnew"],
      CollectList_cons pf st "-gcold" ["-gcnew"],
      CollectList_cons pf st "-gcnew" []]

/-- C6 witness: with only a "-gc" sample present, the absent "-gcold"
category emits nothing and the scrape equals the scrape without it. -/
theorem claim6_absent_category_witness :
    categoryCollect parseDec (put emptyStore "-gc"
      "0.0 1.0 2.0 3.0 4.0 5.0 6.0 7.0 8.0 9.0 10.0 11.0 12.0 13.0 14.0 15.0")
      "-gcold" = .ok [] ∧
    Collect parseDec (put emptyStore "-gc"
      "0.0 1.0 2.0 3.0 4.0 5.0 6.0 7.0 8.0 9.0 10.0 11.0 12.0 13.0 14.0 15.0")
      = CollectList parseDec (put emptyStore "-gc"
        "0.0 1.0 2.0 3.0 4.0 5.0 6.0 7.0 8.0 9.0 10.0 11.0 12.0 13.0 14.0 15.0")
        (categories.erase "-gcold") :=
  claim6_absent_category parseDec
    (put emptyStore "-gc"
      "0.0 1.0 2.0 3.0 4.0 5.0 6.0 7.0 8.0 9.0 10.0 11.0 12.0 13.0 14.0 15.0")
    "-gcold" (by decide) (by decide)

/-- C9: publishing the empty string for a category overwrites any earlier
sample with it, and a scrape then emits none of that category's gauges —
exactly as when no sample was ever received (the collectors treat a stored
"" and an absent entry identically). -/
theorem claim9_empty_line_overwrites {α : Type} (pf : String → Option α)
    (st st2 : SampleStore) (c : String) (hc : c ∈ categories)
    (h2 : get st2 c = none) :
    get (put st c "") c = some "" ∧
    categoryCollect pf (put st c "") c = .ok [] ∧
    categoryCollect pf st2 c = categoryCollect pf (put st c "") c := by
  have hget := get_put_self st c ""
  have hemp : categoryCollect pf (put st c "") c = .ok [] := by
    rw [categoryCollect_eq_jstatCollect pf (put st c "") c hc]
    simp [jstatCollect, hget]
  have habs : categoryCollect pf st2 c = .ok [] := by
    rw [categoryCollect_eq_jstatCollect pf st2 c hc]
    simp only [jstatCollect, h2]
  exact ⟨hget, hemp, by rw [hemp, habs]⟩

/-- C9 witness: the empty line overwrites a non-empty "-gcold" sample and
scrapes like the empty store. -/
theorem claim9_empty_line_overwrites_witness :
    get (put (put emptyStore "-gcold" "0.0 1.0 2.0 3.0 4.0 5.0") "-gcold" "")
      "-gcold" = some "" ∧
    categoryCollect parseDec
      (put (put emptyStore "-gcold" "0.0 1.0 2.0 3.0 4.0 5.0") "-gcold" "")
      "-gcold" = .ok [] ∧
    categoryCollect parseDec emptyStore "-gcold"
      = categoryCollect parseDec
        (put (put emptyStore "-gcold" "0.0 1.0 2.0 3.0 4.0 5.0") "-gcold" "")
        "-gcold" :=
  claim9_empty_line_overwrites parseDec
    (put emptyStore "-gcold" "0.0 1.0 2.0 3.0 4.0 5.0") emptyStore "-gcold"
    (by decide) (by decide)

/-- The scanner loop of `Jps` returns the pid of the first matching entry of
the listing, or "" when no entry matches. -/
theorem jpsScan_eq_find (name : String) :
    ∀ lines : List String,
    jpsScan name lines
      = (match (entries lines).find? (jpsPred name) with
         | some e => e.1
         | none => "") := by
  intro lines
  induction lines with
  | nil => rfl
  | cons line rest ih =>
    rcases hsp : splitSpace line with _ | ⟨i0, _ | ⟨i1, _ | ⟨i2, tl2⟩⟩⟩
    · have hent : entries (line :: rest) = entries rest := by
        simp [entries, List.filterMap_cons, hsp]
      rw [hent]
      simp only [jpsScan, hsp]
      exact ih
    · have hent : entries (line :: rest) = entries rest := by
        simp [entries, List.filterMap_cons, hsp]
      rw [hent]
      simp only [jpsScan, hsp]
      exact ih
    · have hent : entries (line :: rest) = (i0, i1) :: entries rest := by
        simp [entries, List.filterMap_cons, hsp]
      rw [hent]
      simp only [jpsScan, hsp]
      by_cases hexc : i1 = "Jps" ∨ i1 = "Jstat"
      · have hpredf : ¬ jpsPred name (i0, i1) = true := by
          rcases hexc with rfl | rfl <;> simp [jpsPred]
        rw [if_pos hexc, List.find?_cons_of_neg _ hpredf]
        exact ih
      · have hJps : ¬ i1 = "Jps" := fun h => hexc (Or.inl h)
        have hJstat : ¬ i1 = "Jstat" := fun h => hexc (Or.inr h)
        rw [if_neg hexc]
        by_cases hname : name = ""
        · subst hname
          have hpredt : jpsPred "" (i0, i1) = true := by
            simp [jpsPred, hJps, hJstat]
          rw [List.find?_cons_of_pos _ hpredt]
          simp
        · by_cases hmatch : i1 = name
          · have hpredt : jpsPred name (i0, i1) = true := by
              subst hmatch
              simp [jpsPred, hJps, hJstat, hname]
            rw [List.find?_cons_of_pos _ hpredt, if_pos hname, if_pos hmatch]
          · have hpredf : ¬ jpsPred name (i0, i1) = true := by
              simp [jpsPred, hJps, hJstat, hname, hmatch]
            rw [List.find?_cons_of_neg _ hpredf, if_pos hname, if_neg hmatch]
            exact ih
    · have hent : entries (line :: rest) = entries rest := by
        simp [entries, List.filterMap_cons, hsp]
      rw [hent]
      simp only [jpsScan, hsp]
      exact ih

/-- A string of length zero is the empty string. -/
theorem eq_empty_of_length_eq_zero {s : String} (h : s.length = 0) : s = "" := by
  cases s with
  | mk data =>
    simp [String.length] at h
    simp [h]

/-- C7: on any process listing whose `pid name` entries all have a non-empty
pid, the locator `Jps` implements the spec's contract `locateSpec`: skip
entries named "Jps" or "Jstat", return the pid of the first entry whose name
equals a non-empty target exactly (the first non-excluded entry when the
target is empty), and fail with the "No target process" error when the
listing has no match. -/
theorem claim7_locator_contract (name : String) (lines : List String)
    (hp : ∀ e ∈ entries lines, e.1 ≠ "") :
    Jps name lines = locateSpec name lines := by
  rcases hfind : (entries lines).find? (jpsPred name) with _ | e
  · have hscan : jpsScan name lines = "" := by
      rw [jpsScan_eq_find, hfind]
    simp [Jps, locateSpec, hscan, hfind]
  · have hscan : jpsScan name lines = e.1 := by
      rw [jpsScan_eq_find, hfind]
    have hne : e.1 ≠ "" := hp e (List.mem_of_find?_eq_some hfind)
    have hlen : ¬ e.1.length = 0 := fun h0 => hne (eq_empty_of_length_eq_zero h0)
    simp [Jps, locateSpec, hscan, hfind, hlen]

/-- C7 witness: the spec's concrete listing resolves target "MyApp" to pid
"1234", and the locator agrees with the contract on it. -/
theorem claim7_locator_contract_witness :
    Jps "MyApp" ["1234 MyApp", "5678 Jps"]
      = locateSpec "MyApp" ["1234 MyApp", "5678 Jps"] ∧
    Jps "MyApp" ["1234 MyApp", "5678 Jps"] = .ok "1234" :=
  ⟨claim7_locator_contract "MyApp" ["1234 MyApp", "5678 Jps"] (by decide), rfl⟩

/-- C10: a target name of exactly "Jps" or "Jstat" can never be located: the
self-exclusion check precedes the name match, so `Jps` returns the
"No target process" error on every possible listing. -/
theorem claim10_self_excluded_target (lines : List String) :
    Jps "Jps" lines = .error ("No target process: Jps") ∧
    Jps "Jstat" lines = .error ("No target process: Jstat") := by
  have key : ∀ nm : String, nm = "Jps" ∨ nm = "Jstat" → jpsScan nm lines = "" := by
    intro nm hnm
    rw [jpsScan_eq_find]
    have hnone : (entries lines).find? (jpsPred nm) = none := by
      rw [List.find?_eq_none]
      intro e _
      rcases hnm with rfl | rfl <;>
        cases hb : (e.2 == "Jps") <;> cases hb2 : (e.2 == "Jstat") <;>
          simp [jpsPred, hb, hb2]
    rw [hnone]
  have h1 := key "Jps" (Or.inl rfl)
  have h2 := key "Jstat" (Or.inr rfl)
  constructor
  · simp [Jps, h1]
  · simp [Jps, h2]

end JstatExporter
